import Mathlib

/-!
Shallow embedding of `src/sessions.js` of painel-lt-wwebjs-api: the per-key
process supervisor (session registry, restart policy, process reaper,
liveness probe, and the lock-guarded supervisor operations).

Modelling conventions:
* A JS `Map<string, V>` is a `List (String × V)` with `Map.set` /
  `Map.delete` semantics (`setEntry` / `delEntry`); a JS `Set<string>` is a
  `List String` with `addKey` / `delKey`; membership is what matters.
* `Date.now()` timestamps are `Nat` milliseconds.  The two comparisons the
  code makes (`now - first > 120000` and `now - last < 30000`) agree between
  JS signed subtraction and truncated `Nat` subtraction on every input
  (a negative JS difference makes the first false and the second true,
  exactly as `Nat` 0 does), so `Nat` is faithful.
* Filesystem and process effects are oracles passed in as explicit data
  (does the lock file exist, what does the symlink point at, which PIDs are
  alive, what does realpath return), and each function returns alongside
  its result the effects it performed (PIDs signalled, paths removed).
-/

namespace Sessions

/-- JS `Set.add`: insert a key if absent (membership-faithful). -/
def addKey (l : List String) (k : String) : List String :=
  if k ∈ l then l else k :: l

/-- JS `Set.delete` / `Map.delete`: remove every entry for the key. -/
def delKey (l : List String) (k : String) : List String :=
  l.filter (fun x => x ≠ k)

/-- JS `Map.get` on an association list. -/
def getEntry {V : Type} (m : List (String × V)) (k : String) : Option V :=
  (m.find? (fun p => p.1 = k)).map Prod.snd

/-- JS `Map.set` on an association list: overwrite the binding for the key. -/
def setEntry {V : Type} (m : List (String × V)) (k : String) (v : V) :
    List (String × V) :=
  (k, v) :: m.filter (fun p => p.1 ≠ k)

/-- JS `Map.delete` on an association list. -/
def delEntry {V : Type} (m : List (String × V)) (k : String) :
    List (String × V) :=
  m.filter (fun p => p.1 ≠ k)

/-! ## RestartPolicy (`canRestart`, sessions.js lines 13-50) -/

/-- `MAX_RESTART_ATTEMPTS` (line 13). -/
def MAX_RESTART_ATTEMPTS : Nat := 3

/-- `RESTART_COOLDOWN_MS` (line 14). -/
def RESTART_COOLDOWN_MS : Nat := 30000

/-- `RESTART_RESET_MS` (line 15). -/
def RESTART_RESET_MS : Nat := 120000

/-- The record stored in the `restartAttempts` map (line 32):
`{ count, firstAttempt, lastAttempt }`. -/
structure RestartRecord where
  count : Nat
  firstAttempt : Nat
  lastAttempt : Nat
deriving DecidableEq, Repr

/-- `canRestart(sessionId)` (lines 28-50), with `Date.now()` passed in as
`now` and the mutable `restartAttempts` map threaded explicitly.  Returns
the boolean decision and the updated map. -/
def canRestart (now : Nat) (sessionId : String)
    (restartAttempts : List (String × RestartRecord)) :
    Bool × List (String × RestartRecord) :=
  match getEntry restartAttempts sessionId with
  | none =>
      (true, setEntry restartAttempts sessionId ⟨1, now, now⟩)
  | some attempts =>
      if now - attempts.firstAttempt > RESTART_RESET_MS then
        (true, setEntry restartAttempts sessionId ⟨1, now, now⟩)
      else if attempts.count ≥ MAX_RESTART_ATTEMPTS then
        (false, restartAttempts)
      else if now - attempts.lastAttempt < RESTART_COOLDOWN_MS then
        (false, restartAttempts)
      else
        (true, setEntry restartAttempts sessionId
          ⟨attempts.count + 1, attempts.firstAttempt, now⟩)

/-- Modelled from the spec (§4.3 RestartPolicy), for refinement against
`canRestart`: the four-rule decision written exactly as the spec words it
(1. no record or window expired: reset and allow; 2. count at ceiling:
deny; 3. inside cooldown: deny without incrementing; 4. otherwise
increment, update lastAttempt, allow).  The spec calls `firstAttempt`
"windowStart". -/
def canRestartSpec (now : Nat) (sessionId : String)
    (table : List (String × RestartRecord)) :
    Bool × List (String × RestartRecord) :=
  match getEntry table sessionId with
  | none => (true, setEntry table sessionId ⟨1, now, now⟩)
  | some r =>
      if now - r.firstAttempt > 120000 then
        (true, setEntry table sessionId ⟨1, now, now⟩)
      else if r.count ≥ 3 then
        (false, table)
      else if now - r.lastAttempt < 30000 then
        (false, table)
      else
        (true, setEntry table sessionId ⟨r.count + 1, r.firstAttempt, now⟩)

/-- Run a list of attempt times through `canRestart`, collecting the
decisions (used to state the spec scenario at t = 0s, 10s, 40s, ...). -/
def canRestartTrace (times : List Nat) (sessionId : String)
    (table : List (String × RestartRecord)) :
    List Bool × List (String × RestartRecord) :=
  match times with
  | [] => ([], table)
  | t :: ts =>
      let r := canRestart t sessionId table
      let rest := canRestartTrace ts sessionId r.2
      (r.1 :: rest.1, rest.2)

/-! ## ProcessReaper (`killOrphanedBrowserByLockFile`, lines 66-106) -/

/-- Oracle for the filesystem / process state the orphan reaper consults:
whether `lstat` finds the `SingletonLock` artifact, what `readlink` returns
for it (`none` models "not a symlink or unreadable", line 81-83), and which
PIDs `process.kill(pid, 0)` reports alive (line 87). -/
structure ProcWorld where
  lockExists : Bool
  linkTarget : Option String
  pidAlive : Nat → Bool

/-- Decimal digits to a number, as `parseInt(digits, 10)` computes it. -/
def digitsToNat (ds : List Char) : Nat :=
  ds.foldl (fun n c => n * 10 + (c.toNat - ('0').toNat)) 0

/-- The PID extraction of line 77-80: `linkTarget.match` with the regex
"hyphen, then one or more digits, then end of string", followed by
`parseInt(match[1], 10)`.  The regex matches a literal hyphen followed by
a maximal nonempty digit run at the end of the string. -/
def extractPid (s : String) : Option Nat :=
  let rev := s.data.reverse
  let ds := rev.takeWhile (fun c => c.isDigit)
  match ds, rev.drop ds.length with
  | [], _ => none
  | _ :: _, '-' :: _ => some (digitsToNat ds.reverse)
  | _ :: _, _ => none

/-- What one run of the orphan reaper did: which PIDs it sent `SIGKILL`
(line 89), whether it removed the lock artifact (line 100), and its return
value. -/
structure ReapOutcome where
  killedPids : List Nat
  removedLock : Bool
  returned : Bool
deriving DecidableEq, Repr

/-- `killOrphanedBrowserByLockFile(sessionId)` (lines 66-106).  If the lock
artifact is absent, return `false` (line 70-72).  Otherwise extract a PID
from the symlink target; if a nonzero PID was extracted (`if (pid)`,
line 85) and `process.kill(pid, 0)` finds it alive, send it `SIGKILL`
(line 89) — the function consults nothing else before killing: it never
looks at the `sessions` map, at any other key, or at the command line of
the target process.  Finally remove the artifact and return `true`. -/
def killOrphanedBrowserByLockFile (w : ProcWorld) (sessionId : String) :
    ReapOutcome :=
  if !w.lockExists then
    { killedPids := [], removedLock := false, returned := false }
  else
    match w.linkTarget.bind extractPid with
    | none => { killedPids := [], removedLock := true, returned := true }
    | some pid =>
        if pid ≠ 0 then
          if w.pidAlive pid then
            { killedPids := [pid], removedLock := true, returned := true }
          else
            { killedPids := [], removedLock := true, returned := true }
        else
          { killedPids := [], removedLock := true, returned := true }

/-! ## LivenessProbe (`validateSession`, lines 109-159) -/

/-- The shape of `returnData` (line 111): `{ success, state, message }`. -/
structure ValidationResult where
  success : Bool
  state : Option String
  message : String
deriving DecidableEq, Repr

/-- What one iteration of the `while (true)` retry loop (lines 126-142)
observes:
* `closedTab` — `client.pupPage.isClosed()` returns true (line 128);
* `evalOk` — `pupPage.evaluate` resolves before the 1-second timer;
* `evalTimeout` — `evaluate` hangs, so the `Promise.race` against
  `setTimeout(resolve, 1000)` (lines 131-134) resolves via the timer;
* `evalErr` — `isClosed` or `evaluate` throws, landing in the `catch`
  (lines 136-141). -/
inductive ProbeEvent
  | closedTab
  | evalOk
  | evalTimeout
  | evalErr
deriving DecidableEq, Repr

/-- Outcome of the retry loop: an early `return` with a message, a `break`
out of the loop, or (model artifact) the iteration-outcome stream ran dry.
The loop consumes at most three events, so any stream of length three or
more never yields `outOfEvents`. -/
inductive LoopOutcome
  | earlyReturn (message : String)
  | broke
  | outOfEvents
deriving DecidableEq, Repr

/-- The retry loop of lines 125-142, with `maxRetry` threaded explicitly.
A `closedTab` iteration returns "browser tab closed" (line 129); `evalOk`
and `evalTimeout` both leave the loop through `break` (line 135) — a timed
out round trip is NOT retried, because the racing timer resolves the race;
an `evalErr` iteration returns "session closed" when `maxRetry === 2`
(lines 137-139), else increments `maxRetry` and loops. -/
def probeLoop : List ProbeEvent → Nat → LoopOutcome
  | [], _ => .outOfEvents
  | e :: rest, maxRetry =>
      match e with
      | .closedTab => .earlyReturn "browser tab closed"
      | .evalOk => .broke
      | .evalTimeout => .broke
      | .evalErr =>
          if maxRetry = 2 then .earlyReturn "session closed"
          else probeLoop rest (maxRetry + 1)

/-- `validateSession(sessionId)` (lines 109-159).  `registered` is
`sessions.has(sessionId) && sessions.get(sessionId)` (line 114); `events`
drives the retry loop; `state` is what `client.getState()` (line 144)
resolves to.  When the loop breaks, the result is connected exactly when
`state === 'CONNECTED'` (lines 146-154). -/
def validateSession (registered : Bool) (events : List ProbeEvent)
    (state : String) : ValidationResult :=
  if !registered then
    { success := false, state := none, message := "session_not_found" }
  else
    match probeLoop events 0 with
    | .earlyReturn msg => { success := false, state := none, message := msg }
    | .outOfEvents =>
        { success := false, state := none, message := "model_out_of_events" }
    | .broke =>
        if state ≠ "CONNECTED" then
          { success := false, state := some state,
            message := "session_not_connected" }
        else
          { success := true, state := some state,
            message := "session_connected" }

/-! ## SessionRegistry (the `sessions` map and `pendingSessions` set) -/

/-- The registry part of the module state: the key set of the `sessions`
map (line 4, ACTIVE keys) and the `pendingSessions` set (line 5, PENDING
keys). -/
structure Reg where
  sessions : List String
  pendingSessions : List String
deriving DecidableEq, Repr

/-- The synchronous (await-free) blocks of `sessions.js` that mutate the
registry.  Every registry mutation in the file falls in one of these four
blocks, each of which runs without an intervening suspension point:
* `checkReserve` — `setupSession` lines 188-197: the two conflict checks
  and the `pendingSessions.add`;
* `dropPending` — `pendingSessions.delete` alone: setup failure cleanup
  (lines 302 and 310) and the no-client branches of `destroySession`
  (line 645) and `deleteSession` (line 686);
* `commit` — `setupSession` lines 306-307: `sessions.set` then
  `pendingSessions.delete`;
* `clearBoth` — `sessions.delete` then `pendingSessions.delete`:
  `safeRestartSession` lines 324-325 and 332-333, `reloadSession` lines
  627-628, `destroySession` lines 668-670, `deleteSession` lines 716-718. -/
inductive RegStep
  | checkReserve (k : String)
  | dropPending (k : String)
  | commit (k : String)
  | clearBoth (k : String)
deriving DecidableEq, Repr

/-- Effect of one synchronous block on the registry. -/
def applyRegStep : RegStep → Reg → Reg
  | .checkReserve k, r =>
      if k ∈ r.sessions then r
      else if k ∈ r.pendingSessions then r
      else { r with pendingSessions := addKey r.pendingSessions k }
  | .dropPending k, r =>
      { r with pendingSessions := delKey r.pendingSessions k }
  | .commit k, r =>
      { sessions := addKey r.sessions k,
        pendingSessions := delKey r.pendingSessions k }
  | .clearBoth k, r =>
      { sessions := delKey r.sessions k,
        pendingSessions := delKey r.pendingSessions k }

/-- Run a sequence of synchronous blocks (an arbitrary interleaving of the
operations' atomic blocks, as the single-threaded event loop schedules
them). -/
def runRegSteps (steps : List RegStep) (r : Reg) : Reg :=
  steps.foldl (fun acc s => applyRegStep s acc) r

/-- The state invariant of claim C3: no key is simultaneously ACTIVE and
PENDING. -/
def regDisjoint (r : Reg) : Prop :=
  ∀ k, k ∈ r.sessions → k ∉ r.pendingSessions

instance (r : Reg) : Decidable (regDisjoint r) := by
  unfold regDisjoint; infer_instance

/-! ## Supervisor setup (`setupSession`, lines 186-313) -/

/-- Oracles for one run of `setupSession`: whether `lstat` finds a
`SingletonLock` (line 277), whether `fs.promises.unlink` (line 284)
resolves and the message it rejects with otherwise, and whether
`client.initialize()` (line 298) resolves (`none`) or rejects with a
message (`some msg`). -/
structure SetupWorld where
  lockFileExists : Bool
  unlinkOk : Bool
  unlinkErrMsg : String
  initResult : Option String

/-- The observable result of `setupSession`: the `{ success, message,
client }` object it returns (`hasClient` abstracts whether `client` is a
real reference or `null`), plus the effects performed: whether
`killBrowserProcess` ran (line 301) and whether the stale lock was
unlinked (line 284). -/
structure SetupOutcome where
  success : Bool
  message : String
  hasClient : Bool
  reapedBrowser : Bool
  removedStaleLock : Bool
deriving DecidableEq, Repr

/-- `setupSession(sessionId)` (lines 186-313), with `releaseBrowserLock`
the config flag of line 8.  Control flow, mirroring the source:
* line 188: if the key is in `sessions`, return the "already exists"
  failure with the existing client, mutating nothing;
* line 192: if the key is in `pendingSessions`, return the "already in
  progress" failure, mutating nothing;
* line 197: `pendingSessions.add` — still in the same synchronous block as
  both checks (the first `await` is at line 277);
* lines 275-287: if configured and a stale lock exists and the key is not
  in `sessions`, unlink it; if the unlink rejects the outer catch
  (lines 309-311) drops the PENDING mark and returns the failure;
* lines 289-304: on `client.initialize()` rejection, `killBrowserProcess`
  then `pendingSessions.delete`, then the rethrown error reaches the outer
  catch which deletes again and returns `{ success: false, message }`;
* lines 306-308: on success, `sessions.set` then `pendingSessions.delete`
  in one synchronous block, and return success. -/
def setupSession (w : SetupWorld) (releaseBrowserLock : Bool)
    (sessionId : String) (r : Reg) : SetupOutcome × Reg :=
  if sessionId ∈ r.sessions then
    ({ success := false,
       message := "Session already exists for: " ++ sessionId,
       hasClient := true, reapedBrowser := false,
       removedStaleLock := false }, r)
  else if sessionId ∈ r.pendingSessions then
    ({ success := false,
       message := "Session initialization already in progress for: " ++ sessionId,
       hasClient := false, reapedBrowser := false,
       removedStaleLock := false }, r)
  else
    let r1 : Reg := { r with pendingSessions := addKey r.pendingSessions sessionId }
    let tryUnlink := releaseBrowserLock && w.lockFileExists
      && !(decide (sessionId ∈ r1.sessions))
    if tryUnlink && !w.unlinkOk then
      ({ success := false, message := w.unlinkErrMsg, hasClient := false,
         reapedBrowser := false, removedStaleLock := false },
       { r1 with pendingSessions := delKey r1.pendingSessions sessionId })
    else
      match w.initResult with
      | some errMsg =>
          let r2 : Reg := { r1 with pendingSessions := delKey r1.pendingSessions sessionId }
          let r3 : Reg := { r2 with pendingSessions := delKey r2.pendingSessions sessionId }
          ({ success := false, message := errMsg, hasClient := false,
             reapedBrowser := true, removedStaleLock := tryUnlink }, r3)
      | none =>
          ({ success := true, message := "Session initiated successfully",
             hasClient := true, reapedBrowser := false,
             removedStaleLock := tryUnlink },
           { sessions := addKey r1.sessions sessionId,
             pendingSessions := delKey r1.pendingSessions sessionId })

/-- The registry effect of one `setupSession` run, decomposed into the
synchronous blocks of `RegStep`: the conflict checks and the PENDING write
are the single block `checkReserve` (there is no suspension point between
lines 188 and 197), followed by the failure cleanups or the commit. -/
def setupRegTrace (w : SetupWorld) (releaseBrowserLock : Bool)
    (sessionId : String) (r : Reg) : List RegStep :=
  if sessionId ∈ r.sessions ∨ sessionId ∈ r.pendingSessions then
    [RegStep.checkReserve sessionId]
  else
    let tryUnlink := releaseBrowserLock && w.lockFileExists
      && !(decide (sessionId ∈ r.sessions))
    if tryUnlink && !w.unlinkOk then
      [RegStep.checkReserve sessionId, RegStep.dropPending sessionId]
    else
      match w.initResult with
      | some _ =>
          [RegStep.checkReserve sessionId, RegStep.dropPending sessionId,
           RegStep.dropPending sessionId]
      | none =>
          [RegStep.checkReserve sessionId, RegStep.commit sessionId]

/-! ## Folder deletion guard (`deleteSessionFolder`, lines 587-605) -/

/-- JS `String.prototype.startsWith`, on the character lists. -/
def jsStartsWith (s pre : String) : Bool :=
  pre.data.isPrefixOf s.data

/-- JS `String.prototype.endsWith`, on the character lists (used only in
statements about canonical `realpath` outputs). -/
def jsEndsWith (s suffix : String) : Bool :=
  suffix.data.isSuffixOf s.data

/-- `deleteSessionFolder(sessionId)` (lines 587-605).  `realpath` is the
oracle for `fs.promises.realpath` (`none` models a rejection, e.g. a
missing path); `sessionFolderPath` and `sep` are the config root and
`path.sep`; `path.join` is modelled as concatenation with one separator.
Returns `.ok p` when the function reaches `fs.promises.rm(p, ...)`
(line 600) and `.error msg` when it throws first — in particular the
traversal guard (lines 594-599) throws before any filesystem mutation. -/
def deleteSessionFolder (realpath : String → Option String)
    (sessionFolderPath sep : String) (sessionId : String) :
    Except String String :=
  match realpath (sessionFolderPath ++ sep ++ ("session-" ++ sessionId)) with
  | none => .error "realpath target failed"
  | some resolvedTargetDirPath =>
      match realpath sessionFolderPath with
      | none => .error "realpath root failed"
      | some resolvedSessionPath =>
          let safeSessionPath := resolvedSessionPath ++ sep
          if !(jsStartsWith resolvedTargetDirPath safeSessionPath) then
            .error "Invalid path: Directory traversal detected"
          else
            .ok resolvedTargetDirPath

/-! ## Module state and the lock-guarded operations -/

/-- The four module-level mutable structures of lines 4-7: the registry
(`sessions`, `pendingSessions`), the `restartAttempts` map and the
`sessionLocks` map (modelled by its key set: `sessionLocks.get(k)` is
truthy exactly when `k` is a member). -/
structure SessState where
  reg : Reg
  restartAttempts : List (String × RestartRecord)
  sessionLocks : List String
deriving DecidableEq, Repr

/-- Effects of one lock-guarded operation: PIDs sent `SIGKILL`, whether a
`SingletonLock` artifact was removed, and the directory passed to
`fs.promises.rm` if any. -/
structure OpEffects where
  killedPids : List Nat
  removedLock : Bool
  removedFolder : Option String
deriving DecidableEq, Repr

/-- Oracles for `destroySession`: the reaper world (no-client branch), the
browser PID `client.pupBrowser.process().pid` exposes (`none` when there
is no process handle), and whether `pupBrowser.isConnected()` is still
true after the bounded wait loop (lines 660-664). -/
structure DestroyWorld where
  proc : ProcWorld
  clientPid : Option Nat
  browserStillConnected : Bool

/-- `destroySession(sessionId)` (lines 638-677).  The lock is taken at
entry (line 639) and released in the `finally` (line 675) on every path.
With no client in `sessions` (lines 641-646): run the orphan reaper, drop
any PENDING mark, return.  With a client: graceful destroy (its failure is
caught, line 655-659), bounded wait, force kill if the browser is still
connected (lines 665-667), then delete the key from `sessions`,
`pendingSessions` and `restartAttempts` (lines 668-670).  Nothing in the
body rethrows in this model, so the result is always `.ok`. -/
def destroySession (w : DestroyWorld) (sessionId : String) (s : SessState) :
    Except String Unit × SessState × OpEffects :=
  let s0 : SessState := { s with sessionLocks := addKey s.sessionLocks sessionId }
  if sessionId ∉ s0.reg.sessions then
    let reap := killOrphanedBrowserByLockFile w.proc sessionId
    let s1 : SessState := { s0 with reg := { s0.reg with
      pendingSessions := delKey s0.reg.pendingSessions sessionId } }
    let s2 : SessState := { s1 with sessionLocks := delKey s1.sessionLocks sessionId }
    (.ok (), s2, ⟨reap.killedPids, reap.removedLock, none⟩)
  else
    let killed := if w.browserStillConnected then
        (match w.clientPid with | some p => [p] | none => []) else []
    let s1 : SessState := { s0 with
      reg := { sessions := delKey s0.reg.sessions sessionId,
               pendingSessions := delKey s0.reg.pendingSessions sessionId },
      restartAttempts := delEntry s0.restartAttempts sessionId }
    let s2 : SessState := { s1 with sessionLocks := delKey s1.sessionLocks sessionId }
    (.ok (), s2, ⟨killed, false, none⟩)

/-- Oracles for `reloadSession`: whether the page-closing block
(lines 617-623) resolves (when it rejects, `killBrowserProcess` runs,
line 625), the browser PID, and the oracles of the nested `setupSession`
call (line 629). -/
structure ReloadWorld where
  pagesCloseOk : Bool
  clientPid : Option Nat
  setup : SetupWorld
  releaseBrowserLock : Bool

/-- `reloadSession(sessionId)` (lines 608-636): lock-guarded; with no
client it just returns (lines 611-614); otherwise close the browser
(force-killing on failure), clear the key from both registry structures
(lines 627-628), and run `setupSession` again.  `setupSession` catches its
own errors, so the body never throws and the `finally` (line 634) releases
the lock on every path. -/
def reloadSession (w : ReloadWorld) (sessionId : String) (s : SessState) :
    Except String Unit × SessState × OpEffects :=
  let s0 : SessState := { s with sessionLocks := addKey s.sessionLocks sessionId }
  if sessionId ∉ s0.reg.sessions then
    let s1 : SessState := { s0 with sessionLocks := delKey s0.sessionLocks sessionId }
    (.ok (), s1, ⟨[], false, none⟩)
  else
    let killed := if !w.pagesCloseOk then
        (match w.clientPid with | some p => [p] | none => []) else []
    let reg1 : Reg := { sessions := delKey s0.reg.sessions sessionId,
                        pendingSessions := delKey s0.reg.pendingSessions sessionId }
    let setupRun := setupSession w.setup w.releaseBrowserLock sessionId reg1
    let s1 : SessState := { s0 with reg := setupRun.2 }
    let s2 : SessState := { s1 with sessionLocks := delKey s1.sessionLocks sessionId }
    (.ok (), s2, ⟨killed, false, none⟩)

/-- Oracles for `deleteSession`: the reaper world, the browser PID, whether
the browser is still connected after the bounded wait, and the `realpath`
oracle plus path configuration for `deleteSessionFolder`. -/
structure DeleteWorld where
  proc : ProcWorld
  clientPid : Option Nat
  browserStillConnected : Bool
  realpath : String → Option String
  sessionFolderPath : String
  sep : String

/-- `deleteSession(sessionId, validation)` (lines 679-726): lock-guarded.
No-client branch (lines 682-689): orphan reap, drop PENDING, then
`deleteSessionFolder` with its rejection swallowed (`.catch(() => ...)`,
line 687), return ok.  Client branch: graceful logout/destroy (failures
caught), bounded wait, force kill if needed, clear all three structures
(lines 716-718), then `deleteSessionFolder` (line 719) whose rejection is
NOT caught: it propagates through the catch (line 720-722, which
rethrows) — but the `finally` (line 724) still releases the lock. -/
def deleteSession (w : DeleteWorld) (validation : ValidationResult)
    (sessionId : String) (s : SessState) :
    Except String Unit × SessState × OpEffects :=
  let s0 : SessState := { s with sessionLocks := addKey s.sessionLocks sessionId }
  if sessionId ∉ s0.reg.sessions then
    let reap := killOrphanedBrowserByLockFile w.proc sessionId
    let s1 : SessState := { s0 with reg := { s0.reg with
      pendingSessions := delKey s0.reg.pendingSessions sessionId } }
    let removed := match deleteSessionFolder w.realpath w.sessionFolderPath
        w.sep sessionId with
      | .ok p => some p
      | .error _ => none
    let s2 : SessState := { s1 with sessionLocks := delKey s1.sessionLocks sessionId }
    (.ok (), s2, ⟨reap.killedPids, reap.removedLock, removed⟩)
  else
    let killed := if w.browserStillConnected then
        (match w.clientPid with | some p => [p] | none => []) else []
    let s1 : SessState := { s0 with
      reg := { sessions := delKey s0.reg.sessions sessionId,
               pendingSessions := delKey s0.reg.pendingSessions sessionId },
      restartAttempts := delEntry s0.restartAttempts sessionId }
    match deleteSessionFolder w.realpath w.sessionFolderPath w.sep sessionId with
    | .error e =>
        let s2 : SessState := { s1 with sessionLocks := delKey s1.sessionLocks sessionId }
        (.error e, s2, ⟨killed, false, none⟩)
    | .ok p =>
        let s2 : SessState := { s1 with sessionLocks := delKey s1.sessionLocks sessionId }
        (.ok (), s2, ⟨killed, false, some p⟩)

/-- Oracles for the crash-recovery closure `safeRestartSession`: the
current time for `canRestart`, the crashed client PID, and the nested
`setupSession` oracles. -/
structure RestartWorld where
  now : Nat
  clientPid : Option Nat
  setup : SetupWorld
  releaseBrowserLock : Bool

/-- `safeRestartSession(sessionId, reason)` (lines 321-343, inside
`initializeEvents`).  If `canRestart` denies (lines 322-328): delete the
key from both registry structures, force-kill the crashed client, and
return WITHOUT taking the lock.  Otherwise: take the lock, clear the key,
destroy and kill the old client, settle, and re-run `setupSession`; any
error is caught (line 338-340) and the `finally` (line 341) releases the
lock. -/
def safeRestartSession (w : RestartWorld) (sessionId : String)
    (s : SessState) : Except String Unit × SessState × OpEffects :=
  let decision := canRestart w.now sessionId s.restartAttempts
  let s0 : SessState := { s with restartAttempts := decision.2 }
  let killed := match w.clientPid with | some p => [p] | none => []
  if !decision.1 then
    let s1 : SessState := { s0 with reg :=
      { sessions := delKey s0.reg.sessions sessionId,
        pendingSessions := delKey s0.reg.pendingSessions sessionId } }
    (.ok (), s1, ⟨killed, false, none⟩)
  else
    let s1 : SessState := { s0 with sessionLocks := addKey s0.sessionLocks sessionId }
    let reg1 : Reg := { sessions := delKey s1.reg.sessions sessionId,
                        pendingSessions := delKey s1.reg.pendingSessions sessionId }
    let setupRun := setupSession w.setup w.releaseBrowserLock sessionId reg1
    let s2 : SessState := { s1 with reg := setupRun.2 }
    let s3 : SessState := { s2 with sessionLocks := delKey s2.sessionLocks sessionId }
    (.ok (), s3, ⟨killed, false, none⟩)

/-! ## Concurrent setup model (claim C9)

`setupSession` runs on the single-threaded event loop: between two `await`
points its code is atomic.  A call decomposes into the atomic blocks
* begin — the conflict checks plus `pendingSessions.add` (lines 188-197);
* launch — `client.initialize()` completes, a worker process now exists;
* commit — `sessions.set` plus `pendingSessions.delete` (lines 306-307);
and N concurrent calls are an arbitrary interleaving of their blocks.  The
model fixes one key, tracks each caller's phase, and counts the live
worker processes for that key. -/

/-- Phase of one concurrent `setupSession` caller: has not run yet, got a
conflict result back, holds the PENDING reservation, has launched its
worker, or has committed the worker into `sessions`. -/
inductive CallerPhase
  | idle
  | conflicted
  | reserved
  | launched
  | done
deriving DecidableEq, Repr

/-- State shared by the N concurrent callers: the registry, each caller's
phase, and the number of live worker processes for the key. -/
structure ConcState where
  reg : Reg
  phases : List CallerPhase
  workers : Nat
deriving DecidableEq, Repr

/-- One atomic block executed by caller `c`. -/
inductive ConcStep
  | beginStep (c : Nat)
  | launchStep (c : Nat)
  | commitStep (c : Nat)
deriving DecidableEq, Repr

/-- Caller phase lookup (out-of-range callers do not exist: steps by them
are no-ops via the range guard in `applyConcStep`). -/
def getPhase (ps : List CallerPhase) (c : Nat) : CallerPhase :=
  ps.getD c CallerPhase.idle

/-- Semantics of one atomic block, for the fixed key `k`.  A begin by an
idle caller runs lines 188-197: it conflicts if the key is ACTIVE or
PENDING, else reserves; a launch by a reserved caller starts a worker
process; a commit by a launched caller runs lines 306-307.  All other
steps are no-ops (each caller calls `setupSession` once and its blocks run
in program order). -/
def applyConcStep (k : String) : ConcStep → ConcState → ConcState
  | .beginStep c, s =>
      if c < s.phases.length then
        match getPhase s.phases c with
        | .idle =>
            if k ∈ s.reg.sessions then
              { s with phases := s.phases.set c .conflicted }
            else if k ∈ s.reg.pendingSessions then
              { s with phases := s.phases.set c .conflicted }
            else
              { s with
                reg := { s.reg with
                  pendingSessions := addKey s.reg.pendingSessions k },
                phases := s.phases.set c .reserved }
        | _ => s
      else s
  | .launchStep c, s =>
      if c < s.phases.length then
        match getPhase s.phases c with
        | .reserved =>
            { s with workers := s.workers + 1,
                     phases := s.phases.set c .launched }
        | _ => s
      else s
  | .commitStep c, s =>
      if c < s.phases.length then
        match getPhase s.phases c with
        | .launched =>
            { s with
              reg := { sessions := addKey s.reg.sessions k,
                       pendingSessions := delKey s.reg.pendingSessions k },
              phases := s.phases.set c .done }
        | _ => s
      else s

/-- Run an interleaving of atomic blocks. -/
def runConcSteps (k : String) (steps : List ConcStep) (s : ConcState) :
    ConcState :=
  steps.foldl (fun acc st => applyConcStep k st acc) s

/-- The caller holds or held the reservation for the key. -/
def wonRes (p : CallerPhase) : Bool :=
  p = CallerPhase.reserved || p = CallerPhase.launched || p = CallerPhase.done

/-- The caller has launched its worker (which is still accounted live in
this model: no teardown steps exist here). -/
def launchedOrDone (p : CallerPhase) : Bool :=
  p = CallerPhase.launched || p = CallerPhase.done

/-- The inductive invariant of the concurrent-setup model:
1. at most one caller ever wins the reservation;
2. the live worker count equals the number of winners that launched;
3. the key is PENDING or ACTIVE exactly while some winner exists;
4. a conflict is only ever handed out while some winner exists;
5. a committed caller implies the key is ACTIVE. -/
def concInv (k : String) (s : ConcState) : Prop :=
  s.phases.countP wonRes ≤ 1
  ∧ s.workers = s.phases.countP launchedOrDone
  ∧ ((k ∈ s.reg.pendingSessions ∨ k ∈ s.reg.sessions)
      ↔ 0 < s.phases.countP wonRes)
  ∧ ((∃ p ∈ s.phases, p = CallerPhase.conflicted)
      → 0 < s.phases.countP wonRes)
  ∧ ((∃ p ∈ s.phases, p = CallerPhase.done) → k ∈ s.reg.sessions)

/-- Initial state for N concurrent callers on a key that is ABSENT. -/
def concInit (n : Nat) : ConcState :=
  { reg := { sessions := [], pendingSessions := [] },
    phases := List.replicate n CallerPhase.idle,
    workers := 0 }

/-! ## Scenario data -/

/-- Modelled from the spec: `activeProcessIds()` (§4.1) — the snapshot of
PIDs owned by all ACTIVE/PENDING registry entries.  The repository
documentation (23022026 fix, Correção 3) calls it `getActiveBrowserPids`,
but no such function exists anywhere in `sessions.js`; it is modelled here
from an explicit ownership map from registry keys to their worker PIDs in
order to state claim C1. -/
def activeProcessIds (owner : String → Option Nat) (r : Reg) : List Nat :=
  (r.sessions ++ r.pendingSessions).filterMap owner

/-- Scenario for claim C1: the key `k1` is ABSENT but its work directory
still holds a stale `SingletonLock` symlink pointing at `myhost-4242`,
and PID 4242 is alive because the OS reassigned it to the browser of the
currently ACTIVE session `k2`. -/
def c1ProcWorld : ProcWorld :=
  { lockExists := true,
    linkTarget := some "myhost-4242",
    pidAlive := fun p => p = 4242 }

/-- Scenario registry for claim C1: `k2` is ACTIVE, `k1` is ABSENT. -/
def c1Reg : Reg := { sessions := ["k2"], pendingSessions := [] }

/-- Scenario ownership map for claim C1: the ACTIVE session `k2` owns
PID 4242. -/
def c1Owner : String → Option Nat :=
  fun k => if k = "k2" then some 4242 else none

/-- Scenario `realpath` oracle for claim C6: a filesystem with the session
root `/data` and one (symlink-free) session directory inside it. -/
def c6Realpath : String → Option String :=
  fun s =>
    if s = "/data" then some "/data"
    else if s = "/data/session-a" then some "/data/session-a"
    else none

end Sessions

/-! # Theorems -/

namespace Sessions

theorem mem_addKey {l : List String} {k x : String} :
    x ∈ addKey l k ↔ x = k ∨ x ∈ l := by
  unfold addKey
  by_cases h : k ∈ l
  · rw [if_pos h]
    constructor
    · exact Or.inr
    · rintro (rfl | hx)
      · exact h
      · exact hx
  · rw [if_neg h]
    exact List.mem_cons

theorem mem_delKey {l : List String} {k x : String} :
    x ∈ delKey l k ↔ x ∈ l ∧ x ≠ k := by
  unfold delKey
  simp [List.mem_filter]

theorem delKey_of_not_mem {l : List String} {k : String} (h : k ∉ l) :
    delKey l k = l := by
  unfold delKey
  apply List.filter_eq_self.mpr
  intro x hx
  simp only [ne_eq, decide_not, Bool.not_eq_eq_eq_not, Bool.not_true,
    decide_eq_false_iff_not]
  rintro rfl
  exact h hx

theorem delKey_addKey_of_not_mem {l : List String} {k : String} (h : k ∉ l) :
    delKey (addKey l k) k = l := by
  unfold addKey
  rw [if_neg h]
  unfold delKey
  rw [List.filter_cons]
  simp only [ne_eq, not_true_eq_false, decide_False, Bool.false_eq_true,
    if_false]
  exact delKey_of_not_mem h

/-- C1: the claim says `killOrphanedBrowserByLockFile` sends a termination
signal only when all three ownership checks pass (PID not in
`activeProcessIds()`, command line matches the worker binary, command line
references the work directory of this key).  The code performs none of the
three: in the C1 scenario the stale artifact of the ABSENT key `k1`
encodes PID 4242, which is in `activeProcessIds` because it belongs to the
browser of the ACTIVE session `k2`, and the reaper still sends it
`SIGKILL`.  This contradicts the repository documentation
(23022026 fix, Correção 3), which states the function performs exactly
those three checks before killing, so the claim is right and the code is
wrong. -/
theorem c1_reaper_kills_pid_of_active_entry :
    4242 ∈ activeProcessIds c1Owner c1Reg
    ∧ killOrphanedBrowserByLockFile c1ProcWorld "k1"
        = { killedPids := [4242], removedLock := true, returned := true } := by
  constructor
  · decide
  · rfl

/-- C2: `canRestart` implements exactly the four-rule restart decision of
the spec (proved as a refinement against `canRestartSpec`, the rules
written as the spec words them), and the spec scenario holds: attempts at
t = 0s, 10s, 40s, 70s, 100s, 130s from an empty table decide
allow, deny, allow, allow, deny, allow, with the stored count being 1
after t = 0 (fresh window), still 1 after the t = 10s cooldown denial,
2 after t = 40s, 3 after t = 70s, still 3 after the t = 100s ceiling
denial, and reset to a fresh record of count 1 at t = 130s. -/
theorem c2_canRestart_four_rules_and_scenario :
    (∀ (now : Nat) (sessionId : String)
        (table : List (String × RestartRecord)),
        canRestart now sessionId table = canRestartSpec now sessionId table)
    ∧ (canRestartTrace [0, 10000, 40000, 70000, 100000, 130000] "k" []).1
        = [true, false, true, true, false, true]
    ∧ getEntry (canRestartTrace [0] "k" []).2 "k" = some ⟨1, 0, 0⟩
    ∧ getEntry (canRestartTrace [0, 10000] "k" []).2 "k" = some ⟨1, 0, 0⟩
    ∧ getEntry (canRestartTrace [0, 10000, 40000] "k" []).2 "k"
        = some ⟨2, 0, 40000⟩
    ∧ getEntry (canRestartTrace [0, 10000, 40000, 70000] "k" []).2 "k"
        = some ⟨3, 0, 70000⟩
    ∧ getEntry (canRestartTrace [0, 10000, 40000, 70000, 100000] "k" []).2 "k"
        = some ⟨3, 0, 70000⟩
    ∧ getEntry
        (canRestartTrace [0, 10000, 40000, 70000, 100000, 130000] "k" []).2 "k"
        = some ⟨1, 130000, 130000⟩ := by
  refine ⟨fun now sessionId table => rfl, ?_, ?_, ?_, ?_, ?_, ?_, ?_⟩
  all_goals decide

/-- C3: every synchronous (await-free) block of the module that mutates
the registry — the check-and-reserve of setup, the failure cleanups, the
setup commit, and the clear-both blocks of recovery, reload, destroy and
delete — preserves the invariant that no key is simultaneously ACTIVE and
PENDING; hence any interleaving of the operations' blocks keeps the
invariant at every suspension point. -/
theorem c3_registry_disjoint_invariant :
    (∀ (st : RegStep) (r : Reg), regDisjoint r →
        regDisjoint (applyRegStep st r))
    ∧ (∀ (steps : List RegStep) (r : Reg), regDisjoint r →
        regDisjoint (runRegSteps steps r)) := by
  have hstep : ∀ (st : RegStep) (r : Reg), regDisjoint r →
      regDisjoint (applyRegStep st r) := by
    intro st r hr
    cases st with
    | checkReserve k =>
        simp only [applyRegStep]
        by_cases h1 : k ∈ r.sessions
        · rw [if_pos h1]; exact hr
        · rw [if_neg h1]
          by_cases h2 : k ∈ r.pendingSessions
          · rw [if_pos h2]; exact hr
          · rw [if_neg h2]
            intro x hx
            rw [mem_addKey]
            rintro (rfl | hxp)
            · exact h1 hx
            · exact hr x hx hxp
    | dropPending k =>
        intro x hx hmem
        exact hr x hx (mem_delKey.mp hmem).1
    | commit k =>
        intro x hx hmem
        rcases mem_delKey.mp hmem with ⟨hxp, hxk⟩
        rcases mem_addKey.mp hx with rfl | hxs
        · exact hxk rfl
        · exact hr x hxs hxp
    | clearBoth k =>
        intro x hx hmem
        exact hr x (mem_delKey.mp hx).1 (mem_delKey.mp hmem).1
  refine ⟨hstep, ?_⟩
  intro steps
  induction steps with
  | nil => intro r hr; exact hr
  | cons st rest ih =>
      intro r hr
      exact ih (applyRegStep st r) (hstep st r hr)

/-- Witness for C3: the invariant holds of a concrete mixed registry and
is preserved across a concrete interleaving of blocks. -/
theorem c3_registry_disjoint_invariant_witness :
    regDisjoint { sessions := ["a"], pendingSessions := ["b"] }
    ∧ regDisjoint (runRegSteps
        [RegStep.checkReserve "c", RegStep.commit "b", RegStep.clearBoth "a"]
        { sessions := ["a"], pendingSessions := ["b"] }) :=
  ⟨by decide, c3_registry_disjoint_invariant.2
    [RegStep.checkReserve "c", RegStep.commit "b", RegStep.clearBoth "a"]
    { sessions := ["a"], pendingSessions := ["b"] } (by decide)⟩

/-- C4: `setupSession` on an ACTIVE key fails with the "already exists"
conflict and on a PENDING key with the "initialization already in
progress" conflict, in both cases without mutating the registry; the two
conflict messages are distinguishable for every key; and the registry
effect of every run decomposes through `setupRegTrace`, whose head is the
single synchronous block `checkReserve` containing both membership checks
and the PENDING write — no suspension point intervenes between them. -/
theorem c4_setup_conflicts_and_atomic_reserve :
    (∀ (w : SetupWorld) (rb : Bool) (k : String) (r : Reg),
        k ∈ r.sessions →
        setupSession w rb k r
          = ({ success := false,
               message := "Session already exists for: " ++ k,
               hasClient := true, reapedBrowser := false,
               removedStaleLock := false }, r))
    ∧ (∀ (w : SetupWorld) (rb : Bool) (k : String) (r : Reg),
        k ∉ r.sessions → k ∈ r.pendingSessions →
        setupSession w rb k r
          = ({ success := false,
               message := "Session initialization already in progress for: " ++ k,
               hasClient := false, reapedBrowser := false,
               removedStaleLock := false }, r))
    ∧ (∀ k : String,
        "Session already exists for: " ++ k
          ≠ "Session initialization already in progress for: " ++ k)
    ∧ (∀ (w : SetupWorld) (rb : Bool) (k : String) (r : Reg),
        (setupSession w rb k r).2 = runRegSteps (setupRegTrace w rb k r) r) := by
  refine ⟨?_, ?_, ?_, ?_⟩
  · intro w rb k r h
    simp [setupSession, h]
  · intro w rb k r h1 h2
    simp [setupSession, h1, h2]
  · intro k h
    have hlen := congrArg String.length h
    rw [String.length_append, String.length_append] at hlen
    have l1 : ("Session already exists for: ").length = 28 := rfl
    have l2 :
        ("Session initialization already in progress for: ").length = 48 := rfl
    omega
  · intro w rb k r
    by_cases h1 : k ∈ r.sessions
    · simp [setupSession, setupRegTrace, runRegSteps, applyRegStep, h1]
    · by_cases h2 : k ∈ r.pendingSessions
      · simp [setupSession, setupRegTrace, runRegSteps, applyRegStep, h1, h2]
      · simp only [setupSession, setupRegTrace, if_neg h1, if_neg h2,
          if_neg (by simp [h1, h2] : ¬(k ∈ r.sessions ∨ k ∈ r.pendingSessions))]
        by_cases ht : (rb && w.lockFileExists && !(decide (k ∈ r.sessions)))
            && !w.unlinkOk
        · simp [ht, runRegSteps, applyRegStep, if_neg h1, if_neg h2]
        · cases hI : w.initResult <;>
            simp [ht, hI, runRegSteps, applyRegStep, if_neg h1, if_neg h2]

/-- Witness for C4: the conflict branches evaluated for the concrete
session key `a` against a registry where `a` is ACTIVE, respectively
PENDING. -/
theorem c4_setup_conflicts_and_atomic_reserve_witness :
    setupSession ⟨false, true, "u", none⟩ false "a"
        { sessions := ["a"], pendingSessions := [] }
      = ({ success := false, message := "Session already exists for: a",
           hasClient := true, reapedBrowser := false,
           removedStaleLock := false },
         { sessions := ["a"], pendingSessions := [] })
    ∧ setupSession ⟨false, true, "u", none⟩ false "a"
        { sessions := [], pendingSessions := ["a"] }
      = ({ success := false,
           message := "Session initialization already in progress for: a",
           hasClient := false, reapedBrowser := false,
           removedStaleLock := false },
         { sessions := [], pendingSessions := ["a"] }) := by
  constructor
  · have := c4_setup_conflicts_and_atomic_reserve.1 ⟨false, true, "u", none⟩
      false "a" { sessions := ["a"], pendingSessions := [] } (by decide)
    simpa using this
  · have := c4_setup_conflicts_and_atomic_reserve.2.1 ⟨false, true, "u", none⟩
      false "a" { sessions := [], pendingSessions := ["a"] } (by decide)
      (by decide)
    simpa using this

/-- C5: when `client.initialize()` rejects during `setupSession` on a key
that passed the conflict checks (and the optional stale-lock unlink did
not itself reject), the function reaps the partially-started worker
(`killBrowserProcess` runs), surfaces the rejection message in a failed
result with no client, and restores the registry exactly to its entry
state: the key is neither ACTIVE nor PENDING afterwards. -/
theorem c5_setup_launch_failure_cleanup :
    ∀ (w : SetupWorld) (rb : Bool) (k : String) (r : Reg) (msg : String),
      w.initResult = some msg → w.unlinkOk = true →
      k ∉ r.sessions → k ∉ r.pendingSessions →
      setupSession w rb k r
        = ({ success := false, message := msg, hasClient := false,
             reapedBrowser := true,
             removedStaleLock := rb && w.lockFileExists }, r) := by
  intro w rb k r msg hI hU h1 h2
  have hdec : decide (k ∈ r.sessions) = false := decide_eq_false h1
  simp only [setupSession, if_neg h1, if_neg h2, hdec, hU, Bool.not_false,
    Bool.and_true, Bool.not_true, Bool.and_false, Bool.false_eq_true,
    if_false, hI]
  rw [delKey_of_not_mem (l := delKey (addKey r.pendingSessions k) k)
    (by rw [delKey_addKey_of_not_mem h2]; exact h2),
    delKey_addKey_of_not_mem h2]

/-- Witness for C5: a concrete launch failure for the key `a` on an empty
registry, reaped and surfaced, with the registry left empty. -/
theorem c5_setup_launch_failure_cleanup_witness :
    setupSession ⟨true, true, "u", some "Protocol error"⟩ true "a"
        { sessions := [], pendingSessions := [] }
      = ({ success := false, message := "Protocol error", hasClient := false,
           reapedBrowser := true, removedStaleLock := true },
         { sessions := [], pendingSessions := [] }) := by
  have := c5_setup_launch_failure_cleanup ⟨true, true, "u", some "Protocol error"⟩
    true "a" { sessions := [], pendingSessions := [] } "Protocol error"
    rfl rfl (by decide) (by decide)
  simpa using this

/-- C6: whenever `deleteSessionFolder` reaches `fs.promises.rm` (result
`.ok p`), the removed path `p` is a strict descendant of the resolved
session root: it is the resolved root followed by the separator and a
nonempty remainder.  The canonicity hypothesis states that `realpath`
outputs never end in the separator, which holds of real canonical paths
(the only exception, the filesystem root `/`, cannot pass the
`startsWith(root + sep)` guard anyway).  When the guard fails the function
returns an error before any filesystem mutation, by construction of the
model. -/
theorem c6_delete_folder_traversal_guard :
    ∀ (realpath : String → Option String) (root sep sessionId p : String),
      (∀ s q, realpath s = some q → jsEndsWith q sep = false) →
      deleteSessionFolder realpath root sep sessionId = .ok p →
      ∃ rr suffix, realpath root = some rr ∧ suffix ≠ ""
        ∧ p = rr ++ (sep ++ suffix) := by
  intro rp root sep sid p hcanon h
  unfold deleteSessionFolder at h
  cases hT : rp (root ++ sep ++ ("session-" ++ sid)) with
  | none => rw [hT] at h; exact absurd h (by simp)
  | some rt =>
      rw [hT] at h
      cases hR : rp root with
      | none => rw [hR] at h; exact absurd h (by simp)
      | some rr =>
          rw [hR] at h
          by_cases hg : jsStartsWith rt (rr ++ sep) = true
          · simp only [hg, Bool.not_true, Bool.false_eq_true, if_false,
              Except.ok.injEq] at h
            subst h
            unfold jsStartsWith at hg
            rw [List.isPrefixOf_iff_prefix] at hg
            obtain ⟨t, ht⟩ := hg
            refine ⟨rr, ⟨t⟩, rfl, ?_, ?_⟩
            · intro habs
              have ht0 : t = [] := congrArg String.data habs
              rw [ht0, List.append_nil] at ht
              have hend : jsEndsWith rt sep = true := by
                unfold jsEndsWith
                rw [List.isSuffixOf_iff_suffix, ← ht, String.data_append]
                exact List.suffix_append rr.data sep.data
              rw [hcanon _ rt hT] at hend
              exact absurd hend (by simp)
            · apply String.ext
              rw [String.data_append, String.data_append]
              rw [← ht, String.data_append]
              simp
          · have hg' : jsStartsWith rt (rr ++ sep) = false :=
              Bool.eq_false_iff.mpr hg
            simp [hg'] at h

/-- Witness for C6: the concrete filesystem `c6Realpath` satisfies the
canonicity hypothesis, the delete of the key `a` removes exactly
`/data/session-a`, and the theorem exhibits it as a strict descendant of
the resolved root `/data`. -/
theorem c6_delete_folder_traversal_guard_witness :
    (∀ s q, c6Realpath s = some q → jsEndsWith q "/" = false)
    ∧ deleteSessionFolder c6Realpath "/data" "/" "a" = .ok "/data/session-a"
    ∧ (∃ rr suffix, c6Realpath "/data" = some rr ∧ suffix ≠ ""
        ∧ "/data/session-a" = rr ++ ("/" ++ suffix)) := by
  have hcanon : ∀ s q, c6Realpath s = some q → jsEndsWith q "/" = false := by
    intro s q h
    unfold c6Realpath at h
    by_cases h1 : s = "/data"
    · rw [if_pos h1] at h
      cases h
      decide
    · rw [if_neg h1] at h
      by_cases h2 : s = "/data/session-a"
      · rw [if_pos h2] at h
        cases h
        decide
      · rw [if_neg h2] at h
        exact absurd h (by simp)
  have hrun : deleteSessionFolder c6Realpath "/data" "/" "a"
      = .ok "/data/session-a" := by rfl
  exact ⟨hcanon, hrun,
    c6_delete_folder_traversal_guard c6Realpath "/data" "/" "a"
      "/data/session-a" hcanon hrun⟩

/-- C7 counterexample: the claim says that after 3 consecutive timed-out
round-trip attempts `validateSession` returns not-connected with detail
"unresponsive".  In the code a timed-out attempt is not retried at all:
the 1-second timer RESOLVES the `Promise.race` (line 131-134), so the loop
breaks as if the round trip had succeeded.  On a registered key whose
every round-trip attempt times out and whose state is CONNECTED, the probe
returns connected — and the string "unresponsive" appears nowhere. -/
theorem c7_probe_counterexample :
    validateSession true
        [ProbeEvent.evalTimeout, ProbeEvent.evalTimeout, ProbeEvent.evalTimeout]
        "CONNECTED"
      = { success := true, state := some "CONNECTED",
          message := "session_connected" }
    ∧ (validateSession true
        [ProbeEvent.evalTimeout, ProbeEvent.evalTimeout, ProbeEvent.evalTimeout]
        "CONNECTED").message ≠ "unresponsive" := by
  constructor
  · rfl
  · decide

/-- C7 amended: `validateSession` on a registered key returns not-connected
with message "browser tab closed" when the page reports closed; a
round-trip attempt that merely times out (or completes) ends the retry
loop and is NOT treated as a failure; only attempts that throw are
retried, and after 3 consecutive thrown attempts the probe returns
not-connected with message "session closed" (not "unresponsive");
otherwise it queries the high-level state and returns connected iff that
state equals 'CONNECTED'; on an unregistered key it returns
"session_not_found". -/
theorem c7_probe_behaviour :
    ∀ (evs : List ProbeEvent) (st : String),
      validateSession true (ProbeEvent.closedTab :: evs) st
        = { success := false, state := none, message := "browser tab closed" }
      ∧ validateSession true
          (ProbeEvent.evalErr :: ProbeEvent.evalErr :: ProbeEvent.evalErr :: evs) st
        = { success := false, state := none, message := "session closed" }
      ∧ validateSession true (ProbeEvent.evalTimeout :: evs) st
        = (if st = "CONNECTED" then
            { success := true, state := some st,
              message := "session_connected" }
          else
            { success := false, state := some st,
              message := "session_not_connected" })
      ∧ validateSession true (ProbeEvent.evalOk :: evs) st
        = (if st = "CONNECTED" then
            { success := true, state := some st,
              message := "session_connected" }
          else
            { success := false, state := some st,
              message := "session_not_connected" })
      ∧ validateSession false evs st
        = { success := false, state := none, message := "session_not_found" } := by
  intro evs st
  refine ⟨rfl, ?_, ?_, ?_, rfl⟩
  · simp [validateSession, probeLoop]
  · by_cases h : st = "CONNECTED" <;> simp [validateSession, probeLoop, h]
  · by_cases h : st = "CONNECTED" <;> simp [validateSession, probeLoop, h]

/-- C8: on a key in state ABSENT (not ACTIVE, not PENDING, no lock
artifact on disk, lock free), `destroySession` is a no-op: it returns
normally, the whole module state (registry, restartAttempts table, lock
table) is unchanged, and no process is signalled and no filesystem entry
removed; and because the state is unchanged, calling it a second time in
sequence is the same no-op. -/
theorem c8_destroy_absent_idempotent_noop :
    ∀ (w : DestroyWorld) (k : String) (s : SessState),
      w.proc.lockExists = false →
      k ∉ s.reg.sessions → k ∉ s.reg.pendingSessions → k ∉ s.sessionLocks →
      destroySession w k s
        = (.ok (), s, { killedPids := [], removedLock := false,
                        removedFolder := none })
      ∧ destroySession w k (destroySession w k s).2.1
        = (.ok (), s, { killedPids := [], removedLock := false,
                        removedFolder := none }) := by
  intro w k s hlock h1 h2 h3
  have hreap : killOrphanedBrowserByLockFile w.proc k
      = { killedPids := [], removedLock := false, returned := false } := by
    unfold killOrphanedBrowserByLockFile
    rw [hlock]
    rfl
  have hfirst : destroySession w k s
      = (.ok (), s, { killedPids := [], removedLock := false,
                      removedFolder := none }) := by
    unfold destroySession
    rw [if_pos h1, hreap]
    simp only [delKey_of_not_mem h2, delKey_addKey_of_not_mem h3]
  refine ⟨hfirst, ?_⟩
  rw [hfirst]
  exact hfirst

/-- Witness for C8: both sequential teardown calls on the concrete ABSENT
key `a` return normally and change nothing. -/
theorem c8_destroy_absent_idempotent_noop_witness :
    destroySession
        { proc := { lockExists := false, linkTarget := none,
                    pidAlive := fun _ => false },
          clientPid := none, browserStillConnected := false }
        "a"
        { reg := { sessions := [], pendingSessions := [] },
          restartAttempts := [], sessionLocks := [] }
      = (.ok (),
         { reg := { sessions := [], pendingSessions := [] },
           restartAttempts := [], sessionLocks := [] },
         { killedPids := [], removedLock := false, removedFolder := none }) :=
  (c8_destroy_absent_idempotent_noop
    { proc := { lockExists := false, linkTarget := none,
                pidAlive := fun _ => false },
      clientPid := none, browserStillConnected := false }
    "a"
    { reg := { sessions := [], pendingSessions := [] },
      restartAttempts := [], sessionLocks := [] }
    rfl (by decide) (by decide) (by decide)).1

/-- C10: each lock-guarded operation — `destroySession`, `reloadSession`,
`deleteSession` (including the path where `deleteSessionFolder` throws and
the error propagates to the caller) and the recovery closure
`safeRestartSession` — leaves the per-key lock released when it completes,
for every oracle world and every outcome: a failed operation can never
leave the lock held. -/
theorem c10_lock_always_released :
    ∀ (k : String) (s : SessState), k ∉ s.sessionLocks →
      (∀ w : DestroyWorld, k ∉ (destroySession w k s).2.1.sessionLocks)
      ∧ (∀ w : ReloadWorld, k ∉ (reloadSession w k s).2.1.sessionLocks)
      ∧ (∀ (w : DeleteWorld) (v : ValidationResult),
          k ∉ (deleteSession w v k s).2.1.sessionLocks)
      ∧ (∀ w : RestartWorld, k ∉ (safeRestartSession w k s).2.1.sessionLocks) := by
  intro k s h
  refine ⟨fun w => ?_, fun w => ?_, fun w v => ?_, fun w => ?_⟩
  · by_cases hIn : k ∈ s.reg.sessions <;>
      simp [destroySession, hIn, mem_delKey]
  · by_cases hIn : k ∈ s.reg.sessions <;>
      simp [reloadSession, hIn, mem_delKey]
  · by_cases hIn : k ∈ s.reg.sessions
    · cases hd : deleteSessionFolder w.realpath w.sessionFolderPath w.sep k <;>
        simp [deleteSession, hIn, hd, mem_delKey]
    · simp [deleteSession, hIn, mem_delKey]
  · cases hcd : (canRestart w.now k s.restartAttempts).1 <;>
      simp [safeRestartSession, hcd, mem_delKey, h]

/-- Witness for C10: the lock for the concrete key `a` is free beforehand
and is not held after a concrete `deleteSession` run whose folder deletion
throws (the `realpath` oracle rejects everything, so the operation
propagates an error). -/
theorem c10_lock_always_released_witness :
    ("a" : String) ∉ (∅ : List String)
    ∧ "a" ∉ (deleteSession
        { proc := { lockExists := false, linkTarget := none,
                    pidAlive := fun _ => false },
          clientPid := none, browserStillConnected := false,
          realpath := fun _ => none, sessionFolderPath := "/data",
          sep := "/" }
        { success := false, state := none, message := "session_not_found" }
        "a"
        { reg := { sessions := ["a"], pendingSessions := [] },
          restartAttempts := [], sessionLocks := [] }).2.1.sessionLocks :=
  ⟨by decide,
   (c10_lock_always_released "a"
      { reg := { sessions := ["a"], pendingSessions := [] },
        restartAttempts := [], sessionLocks := [] }
      (by decide)).2.2.1
     { proc := { lockExists := false, linkTarget := none,
                 pidAlive := fun _ => false },
       clientPid := none, browserStillConnected := false,
       realpath := fun _ => none, sessionFolderPath := "/data", sep := "/" }
     { success := false, state := none, message := "session_not_found" }⟩

theorem countP_set_add (p : CallerPhase → Bool) (l : List CallerPhase)
    (n : Nat) (a : CallerPhase) (h : n < l.length) :
    (l.set n a).countP p + (if p (getPhase l n) then 1 else 0)
      = l.countP p + (if p a then 1 else 0) := by
  induction l generalizing n with
  | nil => simp at h
  | cons b t ih =>
      cases n with
      | zero =>
          simp only [List.set_cons_zero, List.countP_cons, getPhase,
            List.getD_cons_zero]
          omega
      | succ m =>
          have hm : m < t.length := by simpa using h
          have hih := ih m hm
          simp only [List.set_cons_succ, List.countP_cons, getPhase,
            List.getD_cons_succ] at hih ⊢
          omega

theorem getPhase_mem (ps : List CallerPhase) (c : Nat) (hc : c < ps.length) :
    getPhase ps c ∈ ps := by
  unfold getPhase
  rw [List.getD_eq_getElem _ _ hc]
  exact List.getElem_mem hc

theorem concInv_init (k : String) (n : Nat) : concInv k (concInit n) := by
  have hz : ∀ (p : CallerPhase → Bool), p CallerPhase.idle = false →
      (List.replicate n CallerPhase.idle).countP p = 0 := by
    intro p hp
    apply List.countP_eq_zero.mpr
    intro a ha
    rw [(List.mem_replicate.mp ha).2, hp]
    simp
  refine ⟨?_, ?_, ?_, ?_, ?_⟩
  · rw [show (concInit n).phases = List.replicate n CallerPhase.idle from rfl,
      hz wonRes rfl]
    omega
  · rw [show (concInit n).phases = List.replicate n CallerPhase.idle from rfl,
      hz launchedOrDone rfl]
    rfl
  · rw [show (concInit n).phases = List.replicate n CallerPhase.idle from rfl,
      hz wonRes rfl]
    simp [concInit]
  · rintro ⟨p, hp, rfl⟩
    have := (List.mem_replicate.mp hp).2
    exact absurd this (by decide)
  · rintro ⟨p, hp, rfl⟩
    have := (List.mem_replicate.mp hp).2
    exact absurd this (by decide)

theorem concStep_preserves_inv (k : String) (st : ConcStep) (s : ConcState)
    (hinv : concInv k s) : concInv k (applyConcStep k st s) := by
  obtain ⟨h1, h2, h3, h4, h5⟩ := hinv
  cases st with
  | beginStep c =>
      by_cases hc : c < s.phases.length
      · cases hold : getPhase s.phases c with
        | idle =>
            by_cases hs : k ∈ s.reg.sessions
            · simp only [applyConcStep, if_pos hc, hold, if_pos hs]
              have hcW := countP_set_add wonRes s.phases c
                CallerPhase.conflicted hc
              have hcL := countP_set_add launchedOrDone s.phases c
                CallerPhase.conflicted hc
              rw [hold] at hcW hcL
              simp [wonRes, launchedOrDone] at hcW hcL
              unfold concInv
              dsimp only
              refine ⟨by omega, by omega, ?_, ?_, ?_⟩
              · constructor
                · intro hm
                  have := h3.mp hm
                  omega
                · intro hlt
                  exact h3.mpr (by omega)
              · intro _
                have := h3.mp (Or.inr hs)
                omega
              · rintro ⟨p, hp, rfl⟩
                rcases List.mem_or_eq_of_mem_set hp with hpo | hpe
                · exact h5 ⟨_, hpo, rfl⟩
                · exact absurd hpe (by decide)
            · by_cases hp2 : k ∈ s.reg.pendingSessions
              · simp only [applyConcStep, if_pos hc, hold, if_neg hs,
                  if_pos hp2]
                have hcW := countP_set_add wonRes s.phases c
                  CallerPhase.conflicted hc
                have hcL := countP_set_add launchedOrDone s.phases c
                  CallerPhase.conflicted hc
                rw [hold] at hcW hcL
                simp [wonRes, launchedOrDone] at hcW hcL
                unfold concInv
                dsimp only
                refine ⟨by omega, by omega, ?_, ?_, ?_⟩
                · constructor
                  · intro hm
                    have := h3.mp hm
                    omega
                  · intro hlt
                    exact h3.mpr (by omega)
                · intro _
                  have := h3.mp (Or.inl hp2)
                  omega
                · rintro ⟨p, hp, rfl⟩
                  rcases List.mem_or_eq_of_mem_set hp with hpo | hpe
                  · exact h5 ⟨_, hpo, rfl⟩
                  · exact absurd hpe (by decide)
              · simp only [applyConcStep, if_pos hc, hold, if_neg hs,
                  if_neg hp2]
                have hcW := countP_set_add wonRes s.phases c
                  CallerPhase.reserved hc
                have hcL := countP_set_add launchedOrDone s.phases c
                  CallerPhase.reserved hc
                rw [hold] at hcW hcL
                simp [wonRes, launchedOrDone] at hcW hcL
                have hnA : ¬(k ∈ s.reg.pendingSessions ∨ k ∈ s.reg.sessions) := by
                  rintro (h | h)
                  · exact hp2 h
                  · exact hs h
                have hz : s.phases.countP wonRes = 0 := by
                  have h0 : ¬(0 < s.phases.countP wonRes) :=
                    fun hb => hnA (h3.mpr hb)
                  omega
                unfold concInv
                dsimp only
                refine ⟨by omega, by omega, ?_, fun _ => by omega, ?_⟩
                · apply iff_of_true
                  · exact Or.inl (mem_addKey.mpr (Or.inl rfl))
                  · omega
                · rintro ⟨p, hp, rfl⟩
                  rcases List.mem_or_eq_of_mem_set hp with hpo | hpe
                  · exact h5 ⟨_, hpo, rfl⟩
                  · exact absurd hpe (by decide)
        | conflicted =>
            simp only [applyConcStep, if_pos hc, hold]
            exact ⟨h1, h2, h3, h4, h5⟩
        | reserved =>
            simp only [applyConcStep, if_pos hc, hold]
            exact ⟨h1, h2, h3, h4, h5⟩
        | launched =>
            simp only [applyConcStep, if_pos hc, hold]
            exact ⟨h1, h2, h3, h4, h5⟩
        | done =>
            simp only [applyConcStep, if_pos hc, hold]
            exact ⟨h1, h2, h3, h4, h5⟩
      · simp only [applyConcStep, if_neg hc]
        exact ⟨h1, h2, h3, h4, h5⟩
  | launchStep c =>
      by_cases hc : c < s.phases.length
      · cases hold : getPhase s.phases c with
        | reserved =>
            simp only [applyConcStep, if_pos hc, hold]
            have hcW := countP_set_add wonRes s.phases c
              CallerPhase.launched hc
            have hcL := countP_set_add launchedOrDone s.phases c
              CallerPhase.launched hc
            rw [hold] at hcW hcL
            simp [wonRes, launchedOrDone] at hcW hcL
            have hmem : CallerPhase.reserved ∈ s.phases :=
              hold ▸ getPhase_mem s.phases c hc
            have hpos : 0 < s.phases.countP wonRes :=
              List.countP_pos_iff.mpr ⟨_, hmem, by decide⟩
            unfold concInv
            dsimp only
            refine ⟨by omega, by omega, ?_, ?_, ?_⟩
            · constructor
              · intro hm
                have := h3.mp hm
                omega
              · intro hlt
                exact h3.mpr (by omega)
            · intro _
              omega
            · rintro ⟨p, hp, rfl⟩
              rcases List.mem_or_eq_of_mem_set hp with hpo | hpe
              · exact h5 ⟨_, hpo, rfl⟩
              · exact absurd hpe (by decide)
        | idle =>
            simp only [applyConcStep, if_pos hc, hold]
            exact ⟨h1, h2, h3, h4, h5⟩
        | conflicted =>
            simp only [applyConcStep, if_pos hc, hold]
            exact ⟨h1, h2, h3, h4, h5⟩
        | launched =>
            simp only [applyConcStep, if_pos hc, hold]
            exact ⟨h1, h2, h3, h4, h5⟩
        | done =>
            simp only [applyConcStep, if_pos hc, hold]
            exact ⟨h1, h2, h3, h4, h5⟩
      · simp only [applyConcStep, if_neg hc]
        exact ⟨h1, h2, h3, h4, h5⟩
  | commitStep c =>
      by_cases hc : c < s.phases.length
      · cases hold : getPhase s.phases c with
        | launched =>
            simp only [applyConcStep, if_pos hc, hold]
            have hcW := countP_set_add wonRes s.phases c
              CallerPhase.done hc
            have hcL := countP_set_add launchedOrDone s.phases c
              CallerPhase.done hc
            rw [hold] at hcW hcL
            simp [wonRes, launchedOrDone] at hcW hcL
            have hmem : CallerPhase.launched ∈ s.phases :=
              hold ▸ getPhase_mem s.phases c hc
            have hpos : 0 < s.phases.countP wonRes :=
              List.countP_pos_iff.mpr ⟨_, hmem, by decide⟩
            unfold concInv
            dsimp only
            refine ⟨by omega, by omega, ?_, ?_, ?_⟩
            · apply iff_of_true
              · exact Or.inr (mem_addKey.mpr (Or.inl rfl))
              · omega
            · intro _
              omega
            · intro _
              exact mem_addKey.mpr (Or.inl rfl)
        | idle =>
            simp only [applyConcStep, if_pos hc, hold]
            exact ⟨h1, h2, h3, h4, h5⟩
        | conflicted =>
            simp only [applyConcStep, if_pos hc, hold]
            exact ⟨h1, h2, h3, h4, h5⟩
        | reserved =>
            simp only [applyConcStep, if_pos hc, hold]
            exact ⟨h1, h2, h3, h4, h5⟩
        | done =>
            simp only [applyConcStep, if_pos hc, hold]
            exact ⟨h1, h2, h3, h4, h5⟩
      · simp only [applyConcStep, if_neg hc]
        exact ⟨h1, h2, h3, h4, h5⟩

theorem runConcSteps_inv (k : String) (steps : List ConcStep) (s : ConcState)
    (h : concInv k s) : concInv k (runConcSteps k steps s) := by
  induction steps generalizing s with
  | nil => exact h
  | cons st rest ih => exact ih _ (concStep_preserves_inv k st s h)

theorem applyConcStep_length (k : String) (st : ConcStep) (s : ConcState) :
    (applyConcStep k st s).phases.length = s.phases.length := by
  cases st with
  | beginStep c =>
      by_cases hc : c < s.phases.length
      · cases hold : getPhase s.phases c <;>
          simp only [applyConcStep, if_pos hc, hold] <;> try rfl
        split_ifs <;> simp [List.length_set]
      · simp [applyConcStep, hc]
  | launchStep c =>
      by_cases hc : c < s.phases.length
      · cases hold : getPhase s.phases c <;>
          simp [applyConcStep, hc, hold, List.length_set]
      · simp [applyConcStep, hc]
  | commitStep c =>
      by_cases hc : c < s.phases.length
      · cases hold : getPhase s.phases c <;>
          simp [applyConcStep, hc, hold, List.length_set]
      · simp [applyConcStep, hc]

theorem runConcSteps_length (k : String) (steps : List ConcStep)
    (s : ConcState) :
    (runConcSteps k steps s).phases.length = s.phases.length := by
  induction steps generalizing s with
  | nil => rfl
  | cons st rest ih =>
      have h1 := ih (applyConcStep k st s)
      have h2 := applyConcStep_length k st s
      calc (runConcSteps k (st :: rest) s).phases.length
          = (runConcSteps k rest (applyConcStep k st s)).phases.length := rfl
        _ = (applyConcStep k st s).phases.length := h1
        _ = s.phases.length := h2

theorem countP_conflicted_done_split : ∀ (l : List CallerPhase),
    (∀ p ∈ l, p = CallerPhase.conflicted ∨ p = CallerPhase.done) →
    l.countP (fun p => p = CallerPhase.conflicted)
      + l.countP (fun p => p = CallerPhase.done) = l.length := by
  intro l
  induction l with
  | nil => intro _; simp
  | cons a rest ih =>
      intro hl
      have hrest := ih (fun p hp => hl p (List.mem_cons_of_mem _ hp))
      rcases hl a (List.mem_cons_self _ _) with rfl | rfl <;>
        simp [List.countP_cons] <;> omega

/-- C9: in the concurrent-setup model (any interleaving of the atomic
blocks of N `setupSession` callers on one key, starting from ABSENT), at
every instant at most one worker process is live for the key and at most
one caller holds or ever held the PENDING reservation; and once every
caller has completed (each ended either conflicted or committed), exactly
one caller committed, the other N-1 received a conflict result, the key is
ACTIVE, and exactly one worker is live. -/
theorem c9_concurrent_setup_exclusive :
    ∀ (k : String) (n : Nat) (steps : List ConcStep),
      (runConcSteps k steps (concInit n)).workers ≤ 1
      ∧ (runConcSteps k steps (concInit n)).phases.countP wonRes ≤ 1
      ∧ ((∀ p ∈ (runConcSteps k steps (concInit n)).phases,
            p = CallerPhase.conflicted ∨ p = CallerPhase.done) →
          1 ≤ n →
          (runConcSteps k steps (concInit n)).phases.countP
              (fun p => p = CallerPhase.done) = 1
          ∧ (runConcSteps k steps (concInit n)).phases.countP
              (fun p => p = CallerPhase.conflicted) = n - 1
          ∧ k ∈ (runConcSteps k steps (concInit n)).reg.sessions
          ∧ (runConcSteps k steps (concInit n)).workers = 1) := by
  intro k n steps
  obtain ⟨h1, h2, h3, h4, h5⟩ :=
    runConcSteps_inv k steps (concInit n) (concInv_init k n)
  have hlen : (runConcSteps k steps (concInit n)).phases.length = n := by
    rw [runConcSteps_length]
    simp [concInit]
  have hLW : ∀ a ∈ (runConcSteps k steps (concInit n)).phases,
      launchedOrDone a = true → wonRes a = true := by
    intro a _ hla
    cases a <;> simp_all [launchedOrDone, wonRes]
  refine ⟨?_, h1, ?_⟩
  · rw [h2]
    exact le_trans (List.countP_mono_left hLW) h1
  · intro hcomplete hn
    have hcongW : (runConcSteps k steps (concInit n)).phases.countP wonRes
        = (runConcSteps k steps (concInit n)).phases.countP
            (fun p => p = CallerPhase.done) := by
      apply List.countP_congr
      intro a ha
      rcases hcomplete a ha with rfl | rfl <;> simp [wonRes]
    have hcongL :
        (runConcSteps k steps (concInit n)).phases.countP launchedOrDone
          = (runConcSteps k steps (concInit n)).phases.countP
              (fun p => p = CallerPhase.done) := by
      apply List.countP_congr
      intro a ha
      rcases hcomplete a ha with rfl | rfl <;> simp [launchedOrDone]
    have hpos : 0 < (runConcSteps k steps (concInit n)).phases.countP
        (fun p => p = CallerPhase.done) := by
      by_contra hng
      have hdz : (runConcSteps k steps (concInit n)).phases.countP
          (fun p => p = CallerPhase.done) = 0 := by omega
      have hne : (runConcSteps k steps (concInit n)).phases ≠ [] := by
        intro he
        rw [he] at hlen
        simp at hlen
        omega
      obtain ⟨a, ha⟩ := List.exists_mem_of_ne_nil _ hne
      rcases hcomplete a ha with rfl | rfl
      · have hw := h4 ⟨_, ha, rfl⟩
        rw [hcongW] at hw
        omega
      · have : 0 < (runConcSteps k steps (concInit n)).phases.countP
            (fun p => p = CallerPhase.done) :=
          List.countP_pos_iff.mpr ⟨_, ha, by simp⟩
        omega
    have hd1 : (runConcSteps k steps (concInit n)).phases.countP
        (fun p => p = CallerPhase.done) = 1 := by
      have hle : (runConcSteps k steps (concInit n)).phases.countP
          (fun p => p = CallerPhase.done) ≤ 1 := by
        rw [← hcongW]
        exact h1
      omega
    have hsplit := countP_conflicted_done_split _ hcomplete
    refine ⟨hd1, by omega, ?_, ?_⟩
    · obtain ⟨a, ha, hae⟩ := List.countP_pos_iff.mp hpos
      exact h5 ⟨a, ha, by simpa using hae⟩
    · rw [h2, hcongL, hd1]

/-- Witness for C9: three concrete callers interleaved as
begin(0), begin(1), launch(0), begin(2), commit(0): every caller completes
(caller 0 committed, callers 1 and 2 conflicted), and the theorem yields
exactly one committed caller, two conflicts, the key ACTIVE and one live
worker. -/
theorem c9_concurrent_setup_exclusive_witness :
    (∀ p ∈ (runConcSteps "s"
        [ConcStep.beginStep 0, ConcStep.beginStep 1, ConcStep.launchStep 0,
         ConcStep.beginStep 2, ConcStep.commitStep 0] (concInit 3)).phases,
        p = CallerPhase.conflicted ∨ p = CallerPhase.done)
    ∧ 1 ≤ 3
    ∧ ((runConcSteps "s"
        [ConcStep.beginStep 0, ConcStep.beginStep 1, ConcStep.launchStep 0,
         ConcStep.beginStep 2, ConcStep.commitStep 0] (concInit 3)).phases.countP
          (fun p => p = CallerPhase.done) = 1
      ∧ (runConcSteps "s"
        [ConcStep.beginStep 0, ConcStep.beginStep 1, ConcStep.launchStep 0,
         ConcStep.beginStep 2, ConcStep.commitStep 0] (concInit 3)).phases.countP
          (fun p => p = CallerPhase.conflicted) = 3 - 1
      ∧ "s" ∈ (runConcSteps "s"
        [ConcStep.beginStep 0, ConcStep.beginStep 1, ConcStep.launchStep 0,
         ConcStep.beginStep 2, ConcStep.commitStep 0] (concInit 3)).reg.sessions
      ∧ (runConcSteps "s"
        [ConcStep.beginStep 0, ConcStep.beginStep 1, ConcStep.launchStep 0,
         ConcStep.beginStep 2, ConcStep.commitStep 0] (concInit 3)).workers = 1) :=
  ⟨by decide, by decide,
   (c9_concurrent_setup_exclusive "s" 3
      [ConcStep.beginStep 0, ConcStep.beginStep 1, ConcStep.launchStep 0,
       ConcStep.beginStep 2, ConcStep.commitStep 0]).2.2
     (by decide) (by decide)⟩

end Sessions
